import Mathlib

/-!
Verification development for the mysql-sanitizer relay
(src/server_connection.go, src/config.go).

Bytes are modelled as natural numbers; wherever the Go code relies on
byte or 32-bit arithmetic the model reduces modulo 256 or modulo 2^32
explicitly.  Code of the repository that is not part of src/ (the packet
parser, column decoding, the length-encoded-integer writer and the
synthesized error packet constructor) is modelled from the spec; each
such definition carries a doc comment saying so.
-/

namespace MysqlSan

/-- A byte string, each entry intended to lie below 256. -/
abbrev Bytes := List Nat

/-! ## SHA-256 (model of the Go standard library crypto/sha256) -/

/-- 2^32, the modulus for 32-bit words. -/
def M32 : Nat := 4294967296

/-- Right rotation of a 32-bit word by n bits. -/
def rotr32 (n x : Nat) : Nat := ((x >>> n) ||| (x <<< (32 - n))) % M32

/-- Bitwise complement of a 32-bit word. -/
def bnot32 (x : Nat) : Nat := x ^^^ (M32 - 1)

def bigS0 (x : Nat) : Nat := rotr32 2 x ^^^ rotr32 13 x ^^^ rotr32 22 x

def bigS1 (x : Nat) : Nat := rotr32 6 x ^^^ rotr32 11 x ^^^ rotr32 25 x

def smallS0 (x : Nat) : Nat := rotr32 7 x ^^^ rotr32 18 x ^^^ (x >>> 3)

def smallS1 (x : Nat) : Nat := rotr32 17 x ^^^ rotr32 19 x ^^^ (x >>> 10)

def ch32 (x y z : Nat) : Nat := (x &&& y) ^^^ (bnot32 x &&& z)

def maj32 (x y z : Nat) : Nat := (x &&& y) ^^^ (x &&& z) ^^^ (y &&& z)

/-- The sixty-four round constants of SHA-256 (FIPS 180-4), written in
decimal. -/
def K256 : List Nat :=
  [1116352408, 1899447441, 3049323471, 3921009573, 961987163, 1508970993, 2453635748,
   2870763221, 3624381080, 310598401, 607225278, 1426881987, 1925078388, 2162078206,
   2614888103, 3248222580, 3835390401, 4022224774, 264347078, 604807628, 770255983,
   1249150122, 1555081692, 1996064986, 2554220882, 2821834349, 2952996808, 3210313671,
   3336571891, 3584528711, 113926993, 338241895, 666307205, 773529912, 1294757372,
   1396182291, 1695183700, 1986661051, 2177026350, 2456956037, 2730485921, 2820302411,
   3259730800, 3345764771, 3516065817, 3600352804, 4094571909, 275423344, 430227734,
   506948616, 659060556, 883997877, 958139571, 1322822218, 1537002063, 1747873779,
   1955562222, 2024104815, 2227730452, 2361852424, 2428436474, 2756734187, 3204031479,
   3329325298]

/-- The eight working 32-bit words of the SHA-256 state. -/
structure Digest where
  a : Nat
  b : Nat
  c : Nat
  d : Nat
  e : Nat
  f : Nat
  g : Nat
  h : Nat
deriving DecidableEq, Repr

/-- The starting hash state of SHA-256 (FIPS 180-4), written in decimal. -/
def initDigest : Digest :=
  ⟨1779033703, 3144134277, 1013904242, 2773480762,
   1359893119, 2600822924, 528734635, 1541459225⟩

/-- Big-endian 32-bit word taken from bytes 4i..4i+3 of a block. -/
def word32At (block : Bytes) (i : Nat) : Nat :=
  ((block.drop (4 * i)).take 4).foldl (fun acc b => acc * 256 + b % 256) 0

/-- Extends the 16-word message schedule, one word per step. -/
def wextend (w : List Nat) : Nat → List Nat
  | 0 => w
  | k + 1 =>
    let i := w.length
    let nw := (smallS1 (w.getD (i - 2) 0) + w.getD (i - 7) 0 +
               smallS0 (w.getD (i - 15) 0) + w.getD (i - 16) 0) % M32
    wextend (w ++ [nw]) k

/-- The full 64-word message schedule of one block. -/
def schedW (block : Bytes) : List Nat :=
  wextend ((List.range 16).map (word32At block)) 48

/-- One SHA-256 round, consuming a (round constant, schedule word) pair. -/
def round256 (st : Digest) (kw : Nat × Nat) : Digest :=
  let t1 := (st.h + bigS1 st.e + ch32 st.e st.f st.g + kw.1 + kw.2) % M32
  let t2 := (bigS0 st.a + maj32 st.a st.b st.c) % M32
  ⟨(t1 + t2) % M32, st.a, st.b, st.c, (st.d + t1) % M32, st.e, st.f, st.g⟩

/-- Compression of a single 64-byte block into the running digest. -/
def compress (st : Digest) (block : Bytes) : Digest :=
  let r := (K256.zip (schedW block)).foldl round256 st
  ⟨(st.a + r.a) % M32, (st.b + r.b) % M32, (st.c + r.c) % M32, (st.d + r.d) % M32,
   (st.e + r.e) % M32, (st.f + r.f) % M32, (st.g + r.g) % M32, (st.h + r.h) % M32⟩

/-- Big-endian 8-byte encoding of a 64-bit value. -/
def be64 (n : Nat) : Bytes :=
  [n / 2 ^ 56 % 256, n / 2 ^ 48 % 256, n / 2 ^ 40 % 256, n / 2 ^ 32 % 256,
   n / 2 ^ 24 % 256, n / 2 ^ 16 % 256, n / 2 ^ 8 % 256, n % 256]

/-- Big-endian 4-byte encoding of a 32-bit word. -/
def be32bytes (n : Nat) : Bytes :=
  [n / 2 ^ 24 % 256, n / 2 ^ 16 % 256, n / 2 ^ 8 % 256, n % 256]

/-- SHA-256 padding: 0x80, zeros to 56 mod 64, then the bit length big-endian. -/
def padMsg (msg : Bytes) : Bytes :=
  let L := msg.length
  let k := (64 + 56 - (L + 1) % 64) % 64
  msg ++ [0x80] ++ List.replicate k 0 ++ be64 (L * 8 % 2 ^ 64)

/-- Splits a byte string into 64-byte chunks. -/
def chunks64 (l : Bytes) : List Bytes :=
  if _h : l.length = 0 then [] else l.take 64 :: chunks64 (l.drop 64)
termination_by l.length
decreasing_by
  simp only [List.length_drop]
  omega

/-- The SHA-256 digest of a byte string: 32 bytes. -/
def sha256 (msg : Bytes) : Bytes :=
  let fin := (chunks64 (padMsg msg)).foldl compress initDigest
  be32bytes fin.a ++ be32bytes fin.b ++ be32bytes fin.c ++ be32bytes fin.d ++
  be32bytes fin.e ++ be32bytes fin.f ++ be32bytes fin.g ++ be32bytes fin.h

/-! ## Lowercase hex encoding (model of the Go standard library encoding/hex) -/

/-- The sixteen lowercase hexadecimal digit bytes 0-9, a-f. -/
def hexTable : Bytes := [48, 49, 50, 51, 52, 53, 54, 55, 56, 57, 97, 98, 99, 100, 101, 102]

/-- The byte for one hex digit. -/
def hexDig (n : Nat) : Nat := hexTable.getD n 48

/-- Lowercase hex encoding: two digit bytes per input byte, high nibble first. -/
def hexEncode : Bytes → Bytes
  | [] => []
  | b :: bs => hexDig (b / 16) :: hexDig (b % 16) :: hexEncode bs

/-! ## Data model -/

/-- A MySQL wire packet: sequence id plus payload bytes. -/
structure Packet where
  SequenceID : Nat
  Payload : Bytes
deriving DecidableEq, Repr

/-- Column metadata decoded from a column-definition packet.  The field
`safe` caches the verdict of the external sanitization policy for this
column, which the source exposes as the method IsSafe. -/
structure Column where
  name : Bytes
  Length : Nat
  colType : Nat
  flags : Nat
  safe : Bool
deriving DecidableEq, Repr

/-- The IsSafe method of Column: the cached external policy verdict. -/
def Column.IsSafe (c : Column) : Bool := c.safe

/-! ## Packet codec.  The packet parser is repository code that is not under
src/, so these definitions are modelled from the spec. -/

/-- Modelled from the spec: readEncodedInt decodes the MySQL variable-width
integer.  First byte below 0xFB is the value itself, 0xFC takes two little-
endian bytes, 0xFD three, 0xFE eight; 0xFB is a NULL marker that is invalid
in a bare integer context; truncated input fails.  Returns the value and the
remaining bytes. -/
def ReadEncodedInt : Bytes → Option (Nat × Bytes)
  | [] => none
  | b :: rest =>
    if b < 0xFB then some (b, rest)
    else if b = 0xFC then
      match rest with
      | b0 :: b1 :: r => some (b0 + b1 * 256, r)
      | _ => none
    else if b = 0xFD then
      match rest with
      | b0 :: b1 :: b2 :: r => some (b0 + b1 * 256 + b2 * 65536, r)
      | _ => none
    else if b = 0xFE then
      match rest with
      | b0 :: b1 :: b2 :: b3 :: b4 :: b5 :: b6 :: b7 :: r =>
        some (b0 + b1 * 2 ^ 8 + b2 * 2 ^ 16 + b3 * 2 ^ 24 + b4 * 2 ^ 32 +
              b5 * 2 ^ 40 + b6 * 2 ^ 48 + b7 * 2 ^ 56, r)
      | _ => none
    else none

/-- Modelled from the spec: readStringOrNull reads a length-encoded integer
prefix; prefix byte 0xFB signals NULL and yields no value; otherwise exactly
that many following bytes are consumed.  Fails if fewer bytes remain than
declared.  Returns (decoded value or NULL, remaining bytes). -/
def ReadStringOrNull : Bytes → Option (Option Bytes × Bytes)
  | [] => none
  | b :: rest =>
    if b = 0xFB then some (none, rest)
    else
      match ReadEncodedInt (b :: rest) with
      | none => none
      | some (n, r) => if n ≤ r.length then some (some (r.take n), r.drop n) else none

/-- Modelled from the spec: writeEncodedInt emits the minimal-width
length-encoded form of a value. -/
def LengthEncodedInt (n : Nat) : Bytes :=
  if n < 0xFB then [n]
  else if n < 2 ^ 16 then [0xFC, n % 256, n / 256 % 256]
  else if n < 2 ^ 24 then [0xFD, n % 256, n / 256 % 256, n / 65536 % 256]
  else [0xFE, n % 256, n / 2 ^ 8 % 256, n / 2 ^ 16 % 256, n / 2 ^ 24 % 256,
        n / 2 ^ 32 % 256, n / 2 ^ 40 % 256, n / 2 ^ 48 % 256, n / 2 ^ 56 % 256]

/-! ## Sanitization transform (src/server_connection.go, sanitizeRow) -/

/-- sanitizeRow from the source: SHA-256 over value ++ salt, lowercase hex
encoded (64 bytes), truncated to the column length when the column is
narrower.  The salt, a global in the source (config.HashSaltBytes), is an
explicit argument here. -/
def sanitizeRow (row : Bytes) (column : Column) (salt : Bytes) : Bytes :=
  let newRow := hexEncode (sha256 (row ++ salt))
  if column.Length < newRow.length then newRow.take column.Length else newRow

/-- The sanitization result in the words of the spec: the lowercase hex
encoding of the SHA-256 digest of value ++ salt, truncated to
min(64, column length) bytes. -/
def sanitizeSpec (row : Bytes) (column : Column) (salt : Bytes) : Bytes :=
  (hexEncode (sha256 (row ++ salt))).take (min 64 column.Length)

/-! ## Row decoding and re-encoding (src/server_connection.go) -/

/-- The per-column loop of readRowValues: one ReadStringOrNull per column in
catalog order; a non-null value in an unsafe column is replaced by
sanitizeRow, everything else is kept.  A none result means the spec-modelled
parser failed (truncated field), a case in which the source, whose parser
call has no error slot, defines no behavior. -/
def readRowValuesGo (salt : Bytes) : List Column → Bytes → Option (List (Option Bytes))
  | [], _ => some []
  | col :: cols, buf =>
    match ReadStringOrNull buf with
    | none => none
    | some (none, rest) => (readRowValuesGo salt cols rest).map (none :: ·)
    | some (some v, rest) =>
      let rowVal := if col.IsSafe then v else sanitizeRow v col salt
      (readRowValuesGo salt cols rest).map (some rowVal :: ·)

/-- readRowValues from the source.  The second component of the result is
the returned Go error: the sole return statement of the source is
return rows, nil, so it is always none. -/
def readRowValues (packet : Packet) (columns : List Column) (salt : Bytes) :
    Option (List (Option Bytes) × Option Unit) :=
  (readRowValuesGo salt columns packet.Payload).map (fun vs => (vs, none))

/-- The pure field decode in the words of the spec: one ReadStringOrNull per
column in catalog order, no value rewritten. -/
def decodeFields : List Column → Bytes → Option (List (Option Bytes))
  | [], _ => some []
  | _ :: cols, buf =>
    match ReadStringOrNull buf with
    | none => none
    | some (v, rest) => (decodeFields cols rest).map (v :: ·)

/-- The per-field transform the spec describes: null and safe-column values
unchanged, non-null unsafe values sanitized. -/
def sanitizeField (salt : Bytes) (col : Column) : Option Bytes → Option Bytes
  | none => none
  | some v => some (if col.IsSafe then v else sanitizeRow v col salt)

/-- constructNewResponse from the source: each field is re-encoded as a
length prefix followed by its bytes; a NULL field (none) has Go length zero,
so it contributes exactly the length prefix of zero.  The sequence id is the
one of the original packet. -/
def constructNewResponse (originalPacket : Packet) (rows : List (Option Bytes)) : Packet :=
  ⟨originalPacket.SequenceID,
   rows.foldl (fun acc row =>
     let r := row.getD []
     acc ++ (LengthEncodedInt r.length ++ r)) []⟩

/-! ## Packet classification (src/server_connection.go).  The Go code reads
Payload[0] unconditionally, which panics on an empty payload; the model
returns none in that case. -/

/-- packetIsOK from the source: first byte 0 and payload length at least 7;
none when the payload is empty and the byte access is out of bounds. -/
def packetIsOK (packet : Packet) : Option Bool :=
  packet.Payload.head?.map (fun b => b == 0 && decide (7 ≤ packet.Payload.length))

/-- packetIsERR from the source: first byte 0xFF. -/
def packetIsERR (packet : Packet) : Option Bool :=
  packet.Payload.head?.map (fun b => b == 0xFF)

/-- packetIsEOF from the source: first byte 0xFE and payload length below 9. -/
def packetIsEOF (packet : Packet) : Option Bool :=
  packet.Payload.head?.map (fun b => b == 0xFE && decide (packet.Payload.length < 9))

/-- packetCommand from the source: the first payload byte. -/
def packetCommand (packet : Packet) : Option Nat := packet.Payload.head?

/-! ## Server session handler (src/server_connection.go).

The handler is embedded as pure functions.  The server transport is a list
of packets still to arrive: NextPacket on an exhausted list is the transport
error, and, following the Go convention the source relies on, it then yields
the zero-value packet together with the error flag.  The channel from the
client handler is likewise a list.  Outputs are the packet sequences sent on
the client channel and written to the server stream. -/

/-- The mutable per-session flags of ServerConnection. -/
structure SessionSt where
  sanitizing : Bool
  finished : Bool
deriving DecidableEq, Repr

/-- How an execution of the model can fail to produce a defined result:
an out-of-bounds payload access (a Go panic), a blocked channel receive
with no input left, or a decode for which the source defines no behavior. -/
inductive Failure where
  | oob
  | stuck
  | malformed
deriving DecidableEq, Repr

/-- NextPacket on the modelled transport: transport error on an exhausted
stream, in which case the zero-value packet is returned alongside the error
flag, exactly as the Go multiple-return convention does. -/
def nextPacket (stream : List Packet) : Packet × Bool × List Packet :=
  match stream with
  | [] => (⟨0, []⟩, true, [])
  | p :: rest => (p, false, rest)

/-- Supported command bytes (src constants COM_QUIT .. COM_PING). -/
def supportedCommandByte (c : Nat) : Bool :=
  c == 0x01 || c == 0x02 || c == 0x03 || c == 0x04 || c == 0x09 || c == 0x0c || c == 0x0e

/-- supportedCommand from the source; none when the payload is empty and
the command-byte access is out of bounds. -/
def supportedCommand (packet : Packet) : Option Bool :=
  (packetCommand packet).map supportedCommandByte

/-- Whether a packet classifies as OK, ERR or EOF; none when the payload is
empty and the classification panics. -/
def packetIsTerminal (packet : Packet) : Option Bool := do
  let ok ← packetIsOK packet
  let er ← packetIsERR packet
  let eo ← packetIsEOF packet
  pure (ok || er || eo)

/-- The byte encoding of the source message text naming an unsupported
command (mysql-sanitizer does not support this command, 0x followed by the
byte in two lowercase hex digits). -/
def unsupportedMsg (cmd : Nat) : Bytes :=
  [109, 121, 115, 113, 108, 45, 115, 97, 110, 105, 116, 105, 122, 101, 114, 32,
   100, 111, 101, 115, 110, 39, 116, 32, 115, 117, 112, 112, 111, 114, 116, 32,
   116, 104, 105, 115, 32, 99, 111, 109, 109, 97, 110, 100, 58, 32, 48, 120] ++
  [hexDig (cmd / 16 % 16), hexDig (cmd % 16)]

/-- The byte encoding of the SQL state HY000. -/
def sqlStateHY000 : Bytes := [72, 89, 48, 48, 48]

/-- Modelled from the spec: ErrorPacket synthesizes an error packet whose
payload is 0xFF, the 2-byte little-endian error code, the marker byte 0x23,
the 5-byte SQL state, then the message. -/
def ErrorPacket (seq : Nat) (code : Nat) (sqlState : Bytes) (msg : Bytes) : Packet :=
  ⟨seq, [0xFF, code % 256, code / 256 % 256, 0x23] ++ sqlState ++ msg⟩

/-- The sanitization policy, external per the spec: a predicate on the
decoded column name, type and flags. -/
abbrev Policy := Bytes → Nat → Nat → Bool

/-- Takes exactly n bytes or fails. -/
def takeBytes (n : Nat) (l : Bytes) : Option (Bytes × Bytes) :=
  if n ≤ l.length then some (l.take n, l.drop n) else none

/-- Little-endian value of a byte string. -/
def leVal (bs : Bytes) : Nat := bs.foldr (fun b acc => acc * 256 + b % 256) 0

/-- Modelled from the spec: ReadColumn parses a column-definition payload
with readStringOrNull per the fixed layout (catalog, schema, table, original
table, name, original name, fixed-length marker, character set, column
length, column type, flags, decimals, filler), failing on truncation.  The
cached IsSafe verdict comes from the external policy. -/
def ReadColumn (pol : Policy) (payload : Bytes) : Option Column := do
  let (_catalog, r1) ← ReadStringOrNull payload
  let (_schema, r2) ← ReadStringOrNull r1
  let (_table, r3) ← ReadStringOrNull r2
  let (_orgTable, r4) ← ReadStringOrNull r3
  let (name?, r5) ← ReadStringOrNull r4
  let (_orgName, r6) ← ReadStringOrNull r5
  let (_marker, r7) ← ReadEncodedInt r6
  let (_charset, r8) ← takeBytes 2 r7
  let (lenB, r9) ← takeBytes 4 r8
  let (tyB, r10) ← takeBytes 1 r9
  let (flB, r11) ← takeBytes 2 r10
  let (_decimals, r12) ← takeBytes 1 r11
  let (_filler, _r13) ← takeBytes 2 r12
  let name := name?.getD []
  let ty := leVal tyB
  let fl := leVal flB
  some ⟨name, leVal lenB, ty, fl, pol name ty fl⟩

/-- The column-reading loop of readColumnDefinitions: n packets from the
stream, each forwarded to the client before being parsed.  The middle
component is none when the Go function returned a non-nil error (transport
failure or column parse failure). -/
def readColumnLoop (pol : Policy) : Nat → List Packet →
    List Packet × Option (List Column) × List Packet
  | 0, stream => ([], some [], stream)
  | _ + 1, [] => ([], none, [])
  | n + 1, p :: rest =>
    match ReadColumn pol p.Payload with
    | none => ([p], none, rest)
    | some col =>
      let (sent, cols?, rest2) := readColumnLoop pol n rest
      (p :: sent, cols?.map (col :: ·), rest2)

/-- readColumnDefinitions from the source: the column count is decoded from
the first response packet, which is forwarded to the client, then the column
packets follow.  The count is decoded by a parser call with no error slot,
so a malformed count leaves the source without defined behavior. -/
def readColumnDefinitions (pol : Policy) (packet : Packet) (stream : List Packet) :
    Except Failure (List Packet × Option (List Column) × List Packet) :=
  match ReadEncodedInt packet.Payload with
  | none => .error .malformed
  | some (count, _) =>
    let (sent, cols?, rest) := readColumnLoop pol count stream
    .ok (packet :: sent, cols?, rest)

/-- The row loop of handleQueryResponse: stream packets are decoded as rows
and rebuilt until a terminal packet is forwarded verbatim; a transport error
sets finished.  Result: packets sent to the client, the finished flag, the
remaining stream. -/
def rowLoop (salt : Bytes) (columns : List Column) :
    List Packet → Except Failure (List Packet × Bool × List Packet)
  | [] => .ok ([], true, [])
  | p :: rest => do
    let terminal ← match packetIsTerminal p with
      | none => .error .oob
      | some t => .ok t
    if terminal then .ok ([p], false, rest)
    else
      match readRowValues p columns salt with
      | none => .error .malformed
      | some (vals, err) =>
        match err with
        | some _ => .ok ([], true, rest)
        | none => do
          let (sent, fin, rem) ← rowLoop salt columns rest
          .ok (constructNewResponse p vals :: sent, fin, rem)

/-- Result of a response sub-machine: packets sent to the client, the new
session flags, the remaining stream. -/
structure QOut where
  toClient : List Packet
  st : SessionSt
  stream : List Packet
deriving DecidableEq, Repr

/-- handleQueryResponse from the source: a terminal first packet is
forwarded as-is; otherwise the column definitions are read and forwarded,
one end-of-columns packet is forwarded, and the row loop runs. -/
def handleQueryResponse (pol : Policy) (salt : Bytes) (st : SessionSt)
    (stream : List Packet) : Except Failure QOut :=
  match stream with
  | [] => .ok ⟨[], { st with finished := true }, []⟩
  | response :: rest => do
    let terminal ← match packetIsTerminal response with
      | none => .error .oob
      | some t => .ok t
    if terminal then .ok ⟨[response], st, rest⟩
    else do
      let (sent, cols?, rest2) ← readColumnDefinitions pol response rest
      match cols? with
      | none => .ok ⟨sent, { st with finished := true }, rest2⟩
      | some columns =>
        match rest2 with
        | [] => .ok ⟨sent, { st with finished := true }, []⟩
        | eofPacket :: rest3 => do
          let (rows, fin, rest4) ← rowLoop salt columns rest3
          .ok ⟨sent ++ eofPacket :: rows,
               if fin then { st with finished := true } else st, rest4⟩

/-- handleOtherResponse from the source: forward stream packets verbatim
until one classifies as terminal; a transport error sets finished.  Each
packet is sent before it is classified. -/
def handleOtherResponse (st : SessionSt) : List Packet → Except Failure QOut
  | [] => .ok ⟨[], { st with finished := true }, []⟩
  | p :: rest => do
    let terminal ← match packetIsTerminal p with
      | none => .error .oob
      | some t => .ok t
    if terminal then .ok ⟨[p], st, rest⟩
    else do
      let o ← handleOtherResponse st rest
      .ok ⟨p :: o.toClient, o.st, o.stream⟩

/-- One iteration of the Run command loop on an already received packet.
An unsupported command is answered with a synthesized 1002 HY000 error on
the client channel and nothing reaches the server.  Result adds the packets
written to the server stream. -/
structure StepOut where
  toClient : List Packet
  toServer : List Packet
  st : SessionSt
  stream : List Packet
deriving DecidableEq, Repr

/-- The body of the Run loop from the source, for one packet taken from the
channel. -/
def commandStep (pol : Policy) (salt : Bytes) (st : SessionSt) (packet : Packet)
    (stream : List Packet) : Except Failure StepOut :=
  match packetCommand packet with
  | none => .error .oob
  | some cmd =>
    if supportedCommandByte cmd then
      if cmd = 0x03 then do
        let o ← handleQueryResponse pol salt st stream
        .ok ⟨o.toClient, [packet], o.st, o.stream⟩
      else do
        let o ← handleOtherResponse st stream
        .ok ⟨o.toClient, [packet], o.st, o.stream⟩
    else
      .ok ⟨[ErrorPacket packet.SequenceID 1002 sqlStateHY000 (unsupportedMsg cmd)],
           [], st, stream⟩

/-- The byte encoding of the timeout query text: 0x03 (COM_QUERY), the text
SET max_statement_time followed by space equals space, then the decimal
milliseconds. -/
def decBytesAux : Nat → Nat → Bytes
  | 0, _ => []
  | _ + 1, 0 => []
  | fuel + 1, n => decBytesAux fuel (n / 10) ++ [48 + n % 10]

/-- Decimal digit bytes of a natural number. -/
def decBytes (n : Nat) : Bytes := if n = 0 then [48] else decBytesAux n n

/-- The max_statement_time command packet the source injects (sequence 0). -/
def setCommandPacket (seconds : Nat) : Packet :=
  ⟨0, [0x03, 83, 69, 84, 32, 109, 97, 120, 95, 115, 116, 97, 116, 101, 109, 101,
       110, 116, 95, 116, 105, 109, 101, 32, 61, 32] ++ decBytes (seconds * 1000)⟩

/-- setStatementTimeout from the source: write the command, read the
response, and classify it as ERR before the transport error is checked.
Result: the returned Go error, the packets written to the server, the
remaining stream. -/
def setStatementTimeout (seconds : Nat) (stream : List Packet) :
    Except Failure (Option Unit × List Packet × List Packet) :=
  let (resp, errFlag, rest) := nextPacket stream
  match resp.Payload.head? with
  | none => .error .oob
  | some b =>
    if b = 0xFF then .ok (some (), [setCommandPacket seconds], rest)
    else .ok (if errFlag then some () else none, [setCommandPacket seconds], rest)

/-- Result of the handshake: packets sent to the client and to the server,
the new session flags, the remaining stream and channel. -/
structure HSOut where
  toClient : List Packet
  toServer : List Packet
  st : SessionSt
  stream : List Packet
  chan : List Packet
deriving DecidableEq, Repr

/-- doHandshake from the source: forward the greeting, forward the client
handshake response to the server, read the auth result.  A non-OK auth
result is logged and finishes the session without being forwarded.  On
success the timeout command is injected; only then is the auth OK packet
forwarded to the client. -/
def doHandshake (st : SessionSt) (stream chan : List Packet) : Except Failure HSOut :=
  match stream with
  | [] => .ok ⟨[], [], { st with finished := true }, [], chan⟩
  | welcome :: rest =>
    match chan with
    | [] => .error .stuck
    | clientHandshake :: chanRest =>
      match rest with
      | [] => .ok ⟨[welcome], [clientHandshake], { st with finished := true }, [], chanRest⟩
      | response :: rest2 =>
        match packetIsOK response with
        | none => .error .oob
        | some ok =>
          if !ok then
            .ok ⟨[welcome], [clientHandshake], { st with finished := true }, rest2, chanRest⟩
          else do
            let (err, written, rest3) ← setStatementTimeout 20 rest2
            match err with
            | some _ =>
              .ok ⟨[welcome], clientHandshake :: written, { st with finished := true },
                   rest3, chanRest⟩
            | none =>
              .ok ⟨[welcome, response], clientHandshake :: written, st, rest3, chanRest⟩

/-- The Run command loop from the source: while not finished, take a packet
from the channel and execute one command step.  An exhausted channel ends
the observed trace.  Result: all packets sent to the client and written to
the server. -/
def runLoop (pol : Policy) (salt : Bytes) (st : SessionSt) :
    List Packet → List Packet → Except Failure (List Packet × List Packet)
  | chan, stream =>
    if st.finished then .ok ([], [])
    else
      match chan with
      | [] => .ok ([], [])
      | p :: rest => do
        let o ← commandStep pol salt st p stream
        let (c2, s2) ← runLoop pol salt o.st rest o.stream
        .ok (o.toClient ++ c2, o.toServer ++ s2)

/-- Run from the source: the handshake followed by the command loop. -/
def Run (pol : Policy) (salt : Bytes) (st : SessionSt) (stream chan : List Packet) :
    Except Failure (List Packet × List Packet) := do
  let h ← doHandshake st stream chan
  let (c2, s2) ← runLoop pol salt h.st h.chan h.stream
  .ok (h.toClient ++ c2, h.toServer ++ s2)

/-! ## Observable projections used to state flag-independence -/

/-- The observable part of a response sub-machine result: packets sent,
the finished flag, the remaining stream. -/
def QOut.obs (o : QOut) : List Packet × Bool × List Packet :=
  (o.toClient, o.st.finished, o.stream)

/-- The observable part of a handshake result. -/
def HSOut.obs (o : HSOut) : List Packet × List Packet × Bool × List Packet × List Packet :=
  (o.toClient, o.toServer, o.st.finished, o.stream, o.chan)

/-! ## Helper lemmas -/

theorem exceptBind_ok {ε α β : Type} (a : α) (f : α → Except ε β) :
    (Except.ok a >>= f) = f a := rfl

theorem exceptBind_error {ε α β : Type} (e : ε) (f : α → Except ε β) :
    ((Except.error e : Except ε α) >>= f) = Except.error e := rfl

theorem exceptMap_ok {ε α β : Type} (f : α → β) (a : α) :
    (Except.ok a : Except ε α).map f = .ok (f a) := rfl

theorem exceptMap_error {ε α β : Type} (f : α → β) (e : ε) :
    (Except.error e : Except ε α).map f = .error e := rfl

theorem hexEncode_length (bs : Bytes) : (hexEncode bs).length = 2 * bs.length := by
  induction bs with
  | nil => rfl
  | cons b bs ih => simp [hexEncode, ih]; omega

theorem sha256_length (msg : Bytes) : (sha256 msg).length = 32 := by
  simp [sha256, be32bytes]

theorem hexDig_mem (n : Nat) : hexDig n ∈ hexTable := by
  unfold hexDig
  rcases Nat.lt_or_ge n 16 with h | h
  · interval_cases n <;> decide
  · rw [List.getD_eq_default]
    · decide
    · simpa [hexTable] using h

theorem hexEncode_mem (bs : Bytes) : ∀ b ∈ hexEncode bs, b ∈ hexTable := by
  induction bs with
  | nil => simp [hexEncode]
  | cons x bs ih =>
    intro b hb
    simp only [hexEncode, List.mem_cons] at hb
    rcases hb with h | h | h
    · exact h ▸ hexDig_mem _
    · exact h ▸ hexDig_mem _
    · exact ih b h

theorem readRowValuesGo_decode (salt : Bytes) (cols : List Column) :
    ∀ buf, readRowValuesGo salt cols buf =
      (decodeFields cols buf).map (fun ds => List.zipWith (sanitizeField salt) cols ds) := by
  induction cols with
  | nil => intro buf; simp [readRowValuesGo, decodeFields]
  | cons c cs ih =>
    intro buf
    simp only [readRowValuesGo, decodeFields]
    cases h : ReadStringOrNull buf with
    | none => simp
    | some vr =>
      obtain ⟨v, rest⟩ := vr
      cases v with
      | none =>
        cases hd : decodeFields cs rest <;> simp [ih, hd, sanitizeField]
      | some x =>
        cases hd : decodeFields cs rest <;> simp [ih, hd, sanitizeField, Column.IsSafe]

/-! ## Claim theorems -/

/-- C1: for every value, column and salt, sanitizeRow equals the lowercase
hexadecimal encoding of the SHA-256 digest of value ++ salt truncated to
min(64, column length) bytes; its length is exactly min(64, column length),
and every output byte is a lowercase hexadecimal digit. -/
theorem sanitizeRow_matches_spec (v : Bytes) (col : Column) (s : Bytes) :
    sanitizeRow v col s = sanitizeSpec v col s ∧
    (sanitizeRow v col s).length = min 64 col.Length ∧
    ∀ b ∈ sanitizeRow v col s, b ∈ hexTable := by
  have hl : (hexEncode (sha256 (v ++ s))).length = 64 := by
    rw [hexEncode_length, sha256_length]
  have hmem := hexEncode_mem (sha256 (v ++ s))
  simp only [sanitizeRow, sanitizeSpec, hl]
  rcases Nat.lt_or_ge col.Length 64 with h | h
  · rw [if_pos h, Nat.min_eq_right h.le]
    refine ⟨rfl, ?_, ?_⟩
    · simp [List.length_take, hl]
      omega
    · intro b hb
      exact hmem b (List.take_subset _ _ hb)
  · rw [if_neg (Nat.not_lt.mpr h), Nat.min_eq_left h]
    have htake : (hexEncode (sha256 (v ++ s))).take 64 = hexEncode (sha256 (v ++ s)) := by
      rw [← hl]
      exact List.take_length _
    exact ⟨htake.symm, hl ▸ rfl, hmem⟩

/-- C2: readRowValues decodes one field per column in catalog order and
returns, position by position, exactly the decoded field: unchanged when the
field is NULL or the column is safe, replaced by sanitizeRow when the field
is non-null and the column is unsafe; no other field is altered, and the
error component is nil. -/
theorem readRowValues_pointwise (packet : Packet) (columns : List Column) (salt : Bytes) :
    readRowValues packet columns salt =
      (decodeFields columns packet.Payload).map
        (fun ds => (List.zipWith (sanitizeField salt) columns ds, none)) := by
  simp only [readRowValues, readRowValuesGo_decode]
  cases decodeFields columns packet.Payload <;> simp

/-- C3 as the code behaves: a NULL field of the original row is rebuilt as a
length prefix of zero, the encoding of a zero-length string, not as the NULL
marker 0xFB, so the rebuilt packet decodes to a non-null empty field where
the original had NULL.  Shown on the one-column row packet whose single
field is NULL. -/
theorem constructNewResponse_null_as_empty :
    readRowValues ⟨5, [0xFB]⟩ [⟨[], 10, 0, 0, true⟩] [] = some ([none], none) ∧
    constructNewResponse ⟨5, [0xFB]⟩ [none] = ⟨5, [0]⟩ ∧
    ReadStringOrNull [0] = some (some [], []) ∧
    ReadStringOrNull [0xFB] = some (none, []) := by
  refine ⟨?_, rfl, ?_, ?_⟩ <;> decide

/-- C7 as the code behaves: the sole return statement of readRowValues is
return rows, nil, so whenever readRowValues produces a result its error
component is nil; a malformed row can therefore never reach the row loop
error path through readRowValues. -/
theorem readRowValues_error_always_nil (packet : Packet) (columns : List Column)
    (salt : Bytes) (out : List (Option Bytes) × Option Unit)
    (h : readRowValues packet columns salt = some out) : out.2 = none := by
  simp only [readRowValues] at h
  rcases Option.map_eq_some.mp h with ⟨vs, _, hout⟩
  rw [← hout]

theorem readRowValues_error_always_nil_witness :
    readRowValues ⟨0, [1, 97]⟩ [⟨[], 10, 0, 0, true⟩] [] = some ([some [97]], none) ∧
    (([some [97]], none) : List (Option Bytes) × Option Unit).2 = none :=
  ⟨by decide,
   readRowValues_error_always_nil ⟨0, [1, 97]⟩ [⟨[], 10, 0, 0, true⟩] [] _ (by decide)⟩

/-- C8: for every packet with a non-empty payload, at most one of the OK,
ERR and EOF classifications holds. -/
theorem classification_exclusive (p : Packet) (h : p.Payload ≠ []) :
    ¬(packetIsOK p = some true ∧ packetIsERR p = some true) ∧
    ¬(packetIsOK p = some true ∧ packetIsEOF p = some true) ∧
    ¬(packetIsERR p = some true ∧ packetIsEOF p = some true) := by
  obtain ⟨b, t, hp⟩ : ∃ b t, p.Payload = b :: t := by
    cases hpl : p.Payload with
    | nil => exact absurd hpl h
    | cons b t => exact ⟨b, t, rfl⟩
  simp [packetIsOK, packetIsERR, packetIsEOF, hp]
  omega

theorem classification_exclusive_witness :
    (⟨0, [0]⟩ : Packet).Payload ≠ [] ∧
    (¬(packetIsOK ⟨0, [0]⟩ = some true ∧ packetIsERR ⟨0, [0]⟩ = some true) ∧
     ¬(packetIsOK ⟨0, [0]⟩ = some true ∧ packetIsEOF ⟨0, [0]⟩ = some true) ∧
     ¬(packetIsERR ⟨0, [0]⟩ = some true ∧ packetIsEOF ⟨0, [0]⟩ = some true)) :=
  ⟨by decide, classification_exclusive ⟨0, [0]⟩ (by decide)⟩

/-- C9: rebuilding a row packet preserves the sequence id of the original
packet. -/
theorem constructNewResponse_seq (p : Packet) (rows : List (Option Bytes)) :
    (constructNewResponse p rows).SequenceID = p.SequenceID := rfl

/-- C4: a packet from the client channel whose command byte is not one of
the seven supported commands is answered with the synthesized error packet
(code 1002, SQL state HY000, message naming the byte) on the client channel,
nothing is written to the server stream for it, and the run loop continues
on the remaining channel input with unchanged state (finished stays false). -/
theorem unsupported_command_rejected_locally (pol : Policy) (salt : Bytes)
    (st : SessionSt) (p : Packet) (chanRest stream : List Packet) (c : Nat)
    (hc : packetCommand p = some c) (hunsup : supportedCommandByte c = false)
    (hfin : st.finished = false) :
    commandStep pol salt st p stream =
      .ok ⟨[ErrorPacket p.SequenceID 1002 sqlStateHY000 (unsupportedMsg c)], [], st, stream⟩ ∧
    runLoop pol salt st (p :: chanRest) stream =
      (runLoop pol salt st chanRest stream).map
        (fun out => (ErrorPacket p.SequenceID 1002 sqlStateHY000 (unsupportedMsg c) :: out.1,
                     out.2)) := by
  have hstep : commandStep pol salt st p stream =
      .ok ⟨[ErrorPacket p.SequenceID 1002 sqlStateHY000 (unsupportedMsg c)], [], st, stream⟩ := by
    simp [commandStep, hc, hunsup]
  refine ⟨hstep, ?_⟩
  rw [runLoop]
  simp only [hfin, Bool.false_eq_true, if_false, hstep]
  cases h2 : runLoop pol salt st chanRest stream <;>
    simp [h2, exceptBind_ok, exceptBind_error, exceptMap_ok, exceptMap_error]

theorem unsupported_command_rejected_locally_witness :
    packetCommand ⟨7, [0x16]⟩ = some 0x16 ∧
    supportedCommandByte 0x16 = false ∧
    commandStep (fun _ _ _ => true) [] ⟨false, false⟩ ⟨7, [0x16]⟩ [] =
      .ok ⟨[ErrorPacket 7 1002 sqlStateHY000 (unsupportedMsg 0x16)], [], ⟨false, false⟩, []⟩ :=
  ⟨rfl, rfl,
   (unsupported_command_rejected_locally (fun _ _ _ => true) [] ⟨false, false⟩ ⟨7, [0x16]⟩
      [] [] 0x16 rfl rfl rfl).1⟩

/-- C5 counterexample: with a greeting followed by an ERR auth result on the
server stream, the handshake sends only the greeting to the client and
terminates: the failing auth response is never forwarded, refuting the
claim that the client receives it. -/
theorem auth_failure_not_forwarded :
    doHandshake ⟨false, false⟩ [⟨0, [10]⟩, ⟨2, [0xFF, 1, 2]⟩] [⟨1, [1]⟩] =
      .ok ⟨[⟨0, [10]⟩], [⟨1, [1]⟩], ⟨false, true⟩, [], []⟩ ∧
    (⟨2, [0xFF, 1, 2]⟩ : Packet) ∉ [(⟨0, [10]⟩ : Packet)] :=
  ⟨rfl, by decide⟩

/-- C5 amended: if the auth result is not an OK packet the handler logs and
terminates without entering the command loop; the failing response is not
forwarded, so the client receives only the greeting and then observes the
session closing. -/
theorem auth_failure_terminates_silently (pol : Policy) (salt : Bytes) (st : SessionSt)
    (w ch resp : Packet) (rest chanRest : List Packet) (b : Nat)
    (hb : resp.Payload.head? = some b)
    (hnotok : ¬(b = 0 ∧ 7 ≤ resp.Payload.length)) :
    doHandshake st (w :: resp :: rest) (ch :: chanRest) =
      .ok ⟨[w], [ch], { st with finished := true }, rest, chanRest⟩ ∧
    Run pol salt st (w :: resp :: rest) (ch :: chanRest) = .ok ([w], [ch]) := by
  have hok : (b == 0 && decide (7 ≤ resp.Payload.length)) = false := by
    cases hb0 : (b == 0) with
    | false => simp
    | true => simp_all [beq_iff_eq]
  have hh : doHandshake st (w :: resp :: rest) (ch :: chanRest) =
      .ok ⟨[w], [ch], { st with finished := true }, rest, chanRest⟩ := by
    simp [doHandshake, packetIsOK, hb, hok]
  refine ⟨hh, ?_⟩
  simp only [Run, hh, exceptBind_ok]
  rw [runLoop.eq_def]
  simp [exceptBind_ok]

theorem auth_failure_terminates_silently_witness :
    ((⟨2, [0xFF, 1, 2]⟩ : Packet).Payload.head? = some 0xFF) ∧
    ¬((0xFF : Nat) = 0 ∧ 7 ≤ ([0xFF, 1, 2] : Bytes).length) ∧
    Run (fun _ _ _ => true) [] ⟨false, false⟩ [⟨0, [10]⟩, ⟨2, [0xFF, 1, 2]⟩] [⟨1, [1]⟩] =
      .ok ([⟨0, [10]⟩], [⟨1, [1]⟩]) :=
  ⟨rfl, by decide,
   (auth_failure_terminates_silently (fun _ _ _ => true) [] ⟨false, false⟩
      ⟨0, [10]⟩ ⟨1, [1]⟩ ⟨2, [0xFF, 1, 2]⟩ [] [] 0xFF rfl (by decide)).2⟩

/-- C6 counterexample: on the setStatementTimeout path the response is
classified before the transport error from NextPacket is checked, so a
transport error there makes the handler classify the zero-value packet,
whose payload is empty: the access to payload byte 0 is out of bounds.  The
handshake below supplies a greeting and an OK auth result but no further
server packet, and execution ends in the out-of-bounds failure. -/
theorem setStatementTimeout_oob :
    doHandshake ⟨false, false⟩ [⟨0, [10]⟩, ⟨2, [0, 0, 0, 0, 0, 0, 0]⟩] [⟨1, [1]⟩] =
      .error .oob ∧
    setStatementTimeout 20 [] = .error .oob :=
  ⟨rfl, rfl⟩

theorem packetIsTerminal_isSome (q : Packet) (h : q.Payload ≠ []) :
    (packetIsTerminal q).isSome := by
  cases hq : q.Payload with
  | nil => exact absurd hq h
  | cons b tl => simp [packetIsTerminal, packetIsOK, packetIsERR, packetIsEOF, hq]

theorem rowLoop_no_oob (salt : Bytes) (cols : List Column) :
    ∀ stream : List Packet, (∀ q ∈ stream, q.Payload ≠ []) →
      rowLoop salt cols stream ≠ .error .oob := by
  intro stream
  induction stream with
  | nil => intro _ hx; simp [rowLoop] at hx
  | cons p rest ih =>
    intro hs
    obtain ⟨t, ht⟩ := Option.isSome_iff_exists.mp
      (packetIsTerminal_isSome p (hs p (List.mem_cons_self p rest)))
    have hrest : ∀ q ∈ rest, q.Payload ≠ [] := fun q hq => hs q (List.mem_cons_of_mem _ hq)
    simp only [rowLoop, ht]
    cases t with
    | true => simp [exceptBind_ok, exceptBind_error]
    | false =>
      cases hr : readRowValues p cols salt with
      | none => simp [exceptBind_ok, exceptBind_error]
      | some ve =>
        obtain ⟨vals, err⟩ := ve
        cases err with
        | some u => simp [exceptBind_ok, exceptBind_error]
        | none =>
          cases hrec : rowLoop salt cols rest with
          | error e =>
            simp only [exceptBind_ok, exceptBind_error, hrec]
            intro hx
            injection hx with hx'
            exact ih hrest (hrec.trans (congrArg Except.error hx'))
          | ok o => simp [exceptBind_ok, exceptBind_error, hrec]

theorem handleOtherResponse_no_oob (st : SessionSt) :
    ∀ stream : List Packet, (∀ q ∈ stream, q.Payload ≠ []) →
      handleOtherResponse st stream ≠ .error .oob := by
  intro stream
  induction stream with
  | nil => intro _ hx; simp [handleOtherResponse] at hx
  | cons p rest ih =>
    intro hs
    obtain ⟨t, ht⟩ := Option.isSome_iff_exists.mp
      (packetIsTerminal_isSome p (hs p (List.mem_cons_self p rest)))
    have hrest : ∀ q ∈ rest, q.Payload ≠ [] := fun q hq => hs q (List.mem_cons_of_mem _ hq)
    simp only [handleOtherResponse, ht]
    cases t with
    | true => simp [exceptBind_ok, exceptBind_error]
    | false =>
      cases hrec : handleOtherResponse st rest with
      | error e =>
        simp only [exceptBind_ok, exceptBind_error, hrec]
        intro hx
        injection hx with hx'
        exact ih hrest (hrec.trans (congrArg Except.error hx'))
      | ok o => simp [exceptBind_ok, exceptBind_error, hrec]

theorem readColumnLoop_stream_subset (pol : Policy) :
    ∀ (n : Nat) (stream : List Packet) (q : Packet),
      q ∈ (readColumnLoop pol n stream).2.2 → q ∈ stream := by
  intro n
  induction n with
  | zero => intro stream q hq; simpa [readColumnLoop] using hq
  | succ m ih =>
    intro stream q hq
    cases stream with
    | nil => simp [readColumnLoop] at hq
    | cons p rest =>
      simp only [readColumnLoop] at hq
      cases hc : ReadColumn pol p.Payload with
      | none =>
        rw [hc] at hq
        exact List.mem_cons_of_mem _ hq
      | some col =>
        rw [hc] at hq
        cases hrec : readColumnLoop pol m rest with
        | mk sent z =>
          rw [hrec] at hq
          refine List.mem_cons_of_mem _ (ih rest q ?_)
          rw [hrec]
          exact hq

theorem handleQueryResponse_no_oob (pol : Policy) (salt : Bytes) (st : SessionSt)
    (stream : List Packet) (hs : ∀ q ∈ stream, q.Payload ≠ []) :
    handleQueryResponse pol salt st stream ≠ .error .oob := by
  cases stream with
  | nil => simp [handleQueryResponse]
  | cons response rest =>
    obtain ⟨t, ht⟩ := Option.isSome_iff_exists.mp
      (packetIsTerminal_isSome response (hs response (List.mem_cons_self response rest)))
    have hrest : ∀ q ∈ rest, q.Payload ≠ [] := fun q hq => hs q (List.mem_cons_of_mem _ hq)
    simp only [handleQueryResponse, ht]
    cases t with
    | true => simp [exceptBind_ok, exceptBind_error]
    | false =>
      simp only [readColumnDefinitions]
      cases he : ReadEncodedInt response.Payload with
      | none => simp [exceptBind_ok, exceptBind_error]
      | some cr =>
        obtain ⟨count, rem⟩ := cr
        cases hloop : readColumnLoop pol count rest with
        | mk sent z =>
          obtain ⟨cols?, rest2⟩ := z
          cases cols? with
          | none => simp [hloop, exceptBind_ok, exceptBind_error]
          | some columns =>
            cases rest2 with
            | nil => simp [hloop, exceptBind_ok, exceptBind_error]
            | cons eof rest3 =>
              have h3 : ∀ q ∈ rest3, q.Payload ≠ [] := by
                intro q hq
                refine hrest q (readColumnLoop_stream_subset pol count rest q ?_)
                rw [hloop]
                exact List.mem_cons_of_mem _ hq
              cases hrow : rowLoop salt columns rest3 with
              | error e =>
                simp only [hloop, hrow, exceptBind_ok, exceptBind_error]
                intro hx
                injection hx with hx'
                exact rowLoop_no_oob salt columns rest3 h3
                  (hrow.trans (congrArg Except.error hx'))
              | ok o => simp [hloop, hrow, exceptBind_ok, exceptBind_error]

/-- C6 amended: in the command loop every classified packet has a non-empty
payload and the byte-0 access is in bounds, provided every packet arriving
on the channel and on the server stream has a non-empty payload; the
exception the counterexample exhibits is the setStatementTimeout path, where
a transport error makes the handler classify the empty zero-value packet. -/
theorem commandStep_no_oob (pol : Policy) (salt : Bytes) (st : SessionSt)
    (packet : Packet) (stream : List Packet)
    (hp : packet.Payload ≠ []) (hs : ∀ q ∈ stream, q.Payload ≠ []) :
    commandStep pol salt st packet stream ≠ .error .oob := by
  obtain ⟨c, hc⟩ : ∃ c, packetCommand packet = some c := by
    cases hq : packet.Payload with
    | nil => exact absurd hq hp
    | cons b tl => exact ⟨b, by simp [packetCommand, hq]⟩
  simp only [commandStep, hc]
  cases hsup : supportedCommandByte c with
  | false => simp [exceptBind_ok, exceptBind_error]
  | true =>
    simp only [if_true]
    by_cases hq : c = 0x03
    · simp only [if_pos hq]
      cases hr : handleQueryResponse pol salt st stream with
      | error e =>
        simp only [exceptBind_ok, exceptBind_error, hr]
        intro hx
        injection hx with hx'
        exact handleQueryResponse_no_oob pol salt st stream hs
          (hr.trans (congrArg Except.error hx'))
      | ok o => simp [exceptBind_ok, exceptBind_error, hr]
    · simp only [if_neg hq]
      cases hr : handleOtherResponse st stream with
      | error e =>
        simp only [exceptBind_ok, exceptBind_error, hr]
        intro hx
        injection hx with hx'
        exact handleOtherResponse_no_oob st stream hs
          (hr.trans (congrArg Except.error hx'))
      | ok o => simp [exceptBind_ok, exceptBind_error, hr]

theorem commandStep_no_oob_witness :
    (⟨0, [0x0e]⟩ : Packet).Payload ≠ [] ∧
    (∀ q ∈ [(⟨1, [0, 0, 0, 0, 0, 0, 0]⟩ : Packet)], q.Payload ≠ []) ∧
    commandStep (fun _ _ _ => true) [] ⟨false, false⟩ ⟨0, [0x0e]⟩
      [⟨1, [0, 0, 0, 0, 0, 0, 0]⟩] ≠ .error .oob :=
  ⟨by decide, by decide,
   commandStep_no_oob (fun _ _ _ => true) [] ⟨false, false⟩ ⟨0, [0x0e]⟩
     [⟨1, [0, 0, 0, 0, 0, 0, 0]⟩] (by decide) (by decide)⟩

/-! ## Independence from the sanitizing flag -/

theorem handleOtherResponse_setSan (b : Bool) (st : SessionSt) :
    ∀ stream, handleOtherResponse { st with sanitizing := b } stream =
      (handleOtherResponse st stream).map
        (fun o => ⟨o.toClient, { o.st with sanitizing := b }, o.stream⟩) := by
  intro stream
  induction stream with
  | nil => rfl
  | cons p rest ih =>
    simp only [handleOtherResponse]
    cases ht : packetIsTerminal p with
    | none => simp [exceptBind_error, exceptMap_error]
    | some t =>
      cases t with
      | true => simp [exceptBind_ok, exceptMap_ok]
      | false =>
        simp only [exceptBind_ok, Bool.false_eq_true, if_false, ih]
        cases handleOtherResponse st rest <;>
          simp [exceptBind_ok, exceptBind_error, exceptMap_ok, exceptMap_error]

theorem handleQueryResponse_setSan (pol : Policy) (salt : Bytes) (b : Bool)
    (st : SessionSt) (stream : List Packet) :
    handleQueryResponse pol salt { st with sanitizing := b } stream =
      (handleQueryResponse pol salt st stream).map
        (fun o => ⟨o.toClient, { o.st with sanitizing := b }, o.stream⟩) := by
  cases stream with
  | nil => rfl
  | cons response rest =>
    simp only [handleQueryResponse]
    cases ht : packetIsTerminal response with
    | none => simp [exceptBind_error, exceptMap_error]
    | some t =>
      cases t with
      | true => simp [exceptBind_ok, exceptMap_ok]
      | false =>
        simp only [exceptBind_ok, Bool.false_eq_true, if_false, readColumnDefinitions]
        cases he : ReadEncodedInt response.Payload with
        | none => simp [exceptBind_error, exceptMap_error]
        | some cr =>
          obtain ⟨count, rem⟩ := cr
          cases hloop : readColumnLoop pol count rest with
          | mk sent z =>
            obtain ⟨cols?, rest2⟩ := z
            cases cols? with
            | none => simp [hloop, exceptBind_ok, exceptMap_ok]
            | some columns =>
              cases rest2 with
              | nil => simp [hloop, exceptBind_ok, exceptMap_ok]
              | cons eof rest3 =>
                cases hrow : rowLoop salt columns rest3 with
                | error e =>
                  simp [hloop, hrow, exceptBind_ok, exceptBind_error, exceptMap_error]
                | ok o =>
                  obtain ⟨rows, fin, rest4⟩ := o
                  cases fin <;>
                    simp [hloop, hrow, exceptBind_ok, exceptMap_ok]

theorem commandStep_setSan (pol : Policy) (salt : Bytes) (b : Bool) (st : SessionSt)
    (packet : Packet) (stream : List Packet) :
    commandStep pol salt { st with sanitizing := b } packet stream =
      (commandStep pol salt st packet stream).map
        (fun o => ⟨o.toClient, o.toServer, { o.st with sanitizing := b }, o.stream⟩) := by
  simp only [commandStep]
  cases hc : packetCommand packet with
  | none => simp [exceptMap_error]
  | some cmd =>
    cases hsup : supportedCommandByte cmd with
    | false => simp [hsup, exceptMap_ok]
    | true =>
      simp only [hsup, if_true]
      by_cases hq : cmd = 0x03
      · simp only [if_pos hq, handleQueryResponse_setSan]
        cases handleQueryResponse pol salt st stream <;>
          simp [exceptBind_ok, exceptBind_error, exceptMap_ok, exceptMap_error]
      · simp only [if_neg hq, handleOtherResponse_setSan]
        cases handleOtherResponse st stream <;>
          simp [exceptBind_ok, exceptBind_error, exceptMap_ok, exceptMap_error]

theorem runLoop_setSan (pol : Policy) (salt : Bytes) (b : Bool) :
    ∀ (chan stream : List Packet) (st : SessionSt),
      runLoop pol salt { st with sanitizing := b } chan stream =
        runLoop pol salt st chan stream := by
  intro chan
  induction chan with
  | nil =>
    intro stream st
    rw [runLoop.eq_def, runLoop.eq_def]
  | cons p rest ih =>
    intro stream st
    rw [runLoop.eq_def, runLoop.eq_def]
    cases hf : st.finished with
    | true => simp [hf]
    | false =>
      simp only [hf, Bool.false_eq_true, if_false]
      have hcs2 := commandStep_setSan pol salt b st p stream
      rw [hf] at hcs2
      rw [hcs2]
      cases hcs : commandStep pol salt st p stream with
      | error e => simp [exceptBind_error, exceptMap_error]
      | ok o => simp [exceptBind_ok, exceptMap_ok, ih]

theorem doHandshake_setSan (b : Bool) (st : SessionSt) (stream chan : List Packet) :
    doHandshake { st with sanitizing := b } stream chan =
      (doHandshake st stream chan).map
        (fun o => ⟨o.toClient, o.toServer, { o.st with sanitizing := b }, o.stream, o.chan⟩) := by
  cases stream with
  | nil => rfl
  | cons welcome rest =>
    cases chan with
    | nil => rfl
    | cons ch chanRest =>
      cases rest with
      | nil => rfl
      | cons response rest2 =>
        simp only [doHandshake]
        cases hok : packetIsOK response with
        | none => simp [exceptMap_error]
        | some ok =>
          cases ok with
          | false => simp [exceptMap_ok]
          | true =>
            cases hto : setStatementTimeout 20 rest2 with
            | error e => simp [hto, exceptBind_error, exceptMap_error]
            | ok r =>
              obtain ⟨err, written, rest3⟩ := r
              cases err <;> simp [hto, exceptBind_ok, exceptMap_ok]

theorem Run_setSan (pol : Policy) (salt : Bytes) (b : Bool) (st : SessionSt)
    (stream chan : List Packet) :
    Run pol salt { st with sanitizing := b } stream chan =
      Run pol salt st stream chan := by
  simp only [Run, doHandshake_setSan]
  cases hh : doHandshake st stream chan with
  | error e => simp [exceptBind_error, exceptMap_error]
  | ok h =>
    simp only [exceptBind_ok, exceptMap_ok, runLoop_setSan]

/-- C10: the sanitizing flag written by ToggleSanitizing is never read: two
sessions whose states differ only in the sanitizing field produce identical
packet sequences on the client channel and the server stream, in the full
Run, in the handshake, and in both response sub-machines; whether a value is
sanitized depends only on the IsSafe verdict of its column (readRowValues
does not even receive the session state in the source). -/
theorem sanitizing_flag_never_read (pol : Policy) (salt : Bytes) (b₁ b₂ fin : Bool)
    (stream chan : List Packet) :
    Run pol salt ⟨b₁, fin⟩ stream chan = Run pol salt ⟨b₂, fin⟩ stream chan ∧
    (doHandshake ⟨b₁, fin⟩ stream chan).map HSOut.obs =
      (doHandshake ⟨b₂, fin⟩ stream chan).map HSOut.obs ∧
    (handleQueryResponse pol salt ⟨b₁, fin⟩ stream).map QOut.obs =
      (handleQueryResponse pol salt ⟨b₂, fin⟩ stream).map QOut.obs ∧
    (handleOtherResponse ⟨b₁, fin⟩ stream).map QOut.obs =
      (handleOtherResponse ⟨b₂, fin⟩ stream).map QOut.obs := by
  have e1 : (⟨b₁, fin⟩ : SessionSt) = { (⟨b₂, fin⟩ : SessionSt) with sanitizing := b₁ } := rfl
  refine ⟨?_, ?_, ?_, ?_⟩
  · rw [e1, Run_setSan]
  · rw [e1, doHandshake_setSan]
    cases doHandshake ⟨b₂, fin⟩ stream chan <;>
      simp [HSOut.obs, exceptMap_ok, exceptMap_error]
  · rw [e1, handleQueryResponse_setSan]
    cases handleQueryResponse pol salt ⟨b₂, fin⟩ stream <;>
      simp [QOut.obs, exceptMap_ok, exceptMap_error]
  · rw [e1, handleOtherResponse_setSan]
    cases handleOtherResponse ⟨b₂, fin⟩ stream <;>
      simp [QOut.obs, exceptMap_ok, exceptMap_error]

end MysqlSan
